import Mathlib

set_option maxHeartbeats 1000000

/-!
Verification development for the credo-base repository.

The repository wires a Next.js portal to a background pipeline built on the
trigger.dev task platform.  The pipeline code lives in
src/node/src/trigger (uploadOrchestrator.ts, uploadToOpenAI.ts,
analyzeCompetitors.ts, utils/sanitize.ts) together with unnamed variants of
the same modules (uploadOrchestrator with category fan-out and awaited
evaluation, evaluateCompetitor, the competitor type table).

This file gives a shallow embedding of that pipeline.  Strings are modelled
as lists of characters so that the regular-expression passes of
sanitizeCitations can be modelled at the character level with JavaScript
semantics (ASCII word characters for word boundaries, the JavaScript
whitespace class, left-to-right non-overlapping global replacement).
External effects (S3 download, OpenAI calls, run-level failures of child
tasks) are modelled by explicit outcome environments, and the Prisma tables
by in-memory lists of records.
-/

/-- A JavaScript string, modelled as its list of characters. -/
abbrev Str := List Char

/-- ASCII upper-case letter test. -/
def isAsciiUpper (c : Char) : Bool := 65 ≤ c.toNat && c.toNat ≤ 90

/-- Lower-case an ASCII letter; all other characters are kept.  This models
the case folding performed by the i flag of the regexes in sanitize.ts,
which only ever compare against ASCII pattern letters. -/
def toLowerAscii (c : Char) : Char :=
  if isAsciiUpper c then Char.ofNat (c.toNat + 32) else c

/-- ASCII digit test, the d class of JavaScript regexes. -/
def isDigitC (c : Char) : Bool := 48 ≤ c.toNat && c.toNat ≤ 57

/-- ASCII letter test. -/
def isAsciiAlpha (c : Char) : Bool :=
  (97 ≤ c.toNat && c.toNat ≤ 122) || isAsciiUpper c

/-- JavaScript word character (the w class): ASCII letters, digits and
underscore.  Word boundaries of sanitize.ts are defined from this set. -/
def isWordChar (c : Char) : Bool := isAsciiAlpha c || isDigitC c || c == '_'

/-- Private Use Area character, the range uE000-uF8FF removed by the first
replacement of sanitizeCitations. -/
def isPUA (c : Char) : Bool := 0xE000 ≤ c.toNat && c.toNat ≤ 0xF8FF

/-- The JavaScript whitespace class (the s class and the trim set). -/
def isJsSpace (c : Char) : Bool :=
  c.toNat == 0x9 || c.toNat == 0xA || c.toNat == 0xB || c.toNat == 0xC ||
  c.toNat == 0xD || c.toNat == 0x20 || c.toNat == 0xA0 || c.toNat == 0x1680 ||
  (0x2000 ≤ c.toNat && c.toNat ≤ 0x200A) ||
  c.toNat == 0x2028 || c.toNat == 0x2029 || c.toNat == 0x202F ||
  c.toNat == 0x205F || c.toNat == 0x3000 || c.toNat == 0xFEFF

/-- Case-insensitive leading match of a lower-case ASCII pattern against an
input; returns the number of characters consumed. -/
def matchCIn : Str → Str → Option Nat
  | [], _ => some 0
  | _ :: _, [] => none
  | p :: ps, c :: cs =>
      if toLowerAscii c == p then (matchCIn ps cs).map (fun n => n + 1) else none

/-- True when position n of the string is a word boundary on its right side:
either the end of the string or a non-word character. -/
def boundaryAtLen (s : Str) (n : Nat) : Bool :=
  match s.get? n with
  | none => true
  | some c => !(isWordChar c)

def turnPat : Str := "turn".data

def searchPat : Str := "search".data

def newsPat : Str := "news".data

def citePat : Str := "cite".data

def citationPat : Str := "citation".data

def citationsPat : Str := "citations".data

/-- Length of the maximal digit run at the head of a string. -/
def digitRunLen (s : Str) : Nat := (s.takeWhile isDigitC).length

/-- Match the token turn-digits-(search or news)-digits of the second
replacement regex of sanitizeCitations at the head of the string, returning
the number of characters it spans.  The left word boundary is checked by the
caller; the right word boundary is checked here.  Greedy digit runs never
need backtracking because search and news start with non-digits. -/
def matchTurnLen (s : Str) : Option Nat :=
  match matchCIn turnPat s with
  | none => none
  | some n1 =>
    let d1 := digitRunLen (s.drop n1)
    if d1 == 0 then none else
    match (matchCIn searchPat (s.drop (n1 + d1))).orElse
        (fun _ => matchCIn newsPat (s.drop (n1 + d1))) with
    | none => none
    | some n2 =>
      let d2 := digitRunLen (s.drop (n1 + d1 + n2))
      if d2 == 0 then none
      else if boundaryAtLen s (n1 + d1 + n2 + d2) then some (n1 + d1 + n2 + d2)
      else none

/-- Match one whole word given by a lower-case pattern, requiring a word
boundary after it. -/
def matchWordLen (pat : Str) (s : Str) : Option Nat :=
  match matchCIn pat s with
  | some n => if boundaryAtLen s n then some n else none
  | none => none

/-- Match the cite, citation or citations token of the third replacement
regex of sanitizeCitations.  The three alternatives are mutually exclusive
once the trailing word boundary is required, so trying the longest first is
equivalent to the in-order alternation of the source regex. -/
def matchCiteLen (s : Str) : Option Nat :=
  (matchWordLen citationsPat s).orElse
    (fun _ => (matchWordLen citationPat s).orElse (fun _ => matchWordLen citePat s))

/-- One left-to-right global-replacement pass deleting the tokens recognised
by the matcher m, with JavaScript word-boundary semantics: a match is only
attempted when the previous character of the original string is not a word
character, and scanning resumes after the end of a deleted match.  Every
step consumes at least one character of the input, so a fuel equal to the
input length (supplied by the caller) is never exhausted; the fuel only
serves the structural termination argument. -/
def scanRemoveWith (m : Str → Option Nat) : Nat → Bool → Str → Str
  | 0, _, s => s
  | _ + 1, _, [] => []
  | fuel + 1, prevW, c :: cs =>
    if prevW then c :: scanRemoveWith m fuel (isWordChar c) cs
    else
      match m (c :: cs) with
      | some n =>
        if 1 ≤ n then
          let lastW :=
            match (c :: cs).get? (n - 1) with
            | some lc => isWordChar lc
            | none => true
          scanRemoveWith m fuel lastW ((c :: cs).drop n)
        else c :: scanRemoveWith m fuel (isWordChar c) cs
      | none => c :: scanRemoveWith m fuel (isWordChar c) cs

/-- Match a bracketed numeric reference, the fourth replacement regex of
sanitizeCitations: an opening bracket, digits, optionally a dash and more
digits, and a closing bracket; returns the number of characters it spans. -/
def matchBracketLen (s : Str) : Option Nat :=
  match s with
  | '[' :: rest =>
    let d1 := digitRunLen rest
    if d1 == 0 then none else
    match rest.drop d1 with
    | ']' :: _ => some (d1 + 2)
    | '-' :: r3 =>
      let d2 := digitRunLen r3
      if d2 == 0 then none else
      match r3.drop d2 with
      | ']' :: _ => some (d1 + d2 + 3)
      | _ => none
    | _ => none
  | _ => none

/-- Left-to-right global removal of bracketed numeric references.  On a
failed match the scan advances one character, exactly as the JavaScript
regex engine does, so a reference uncovered by an earlier deletion in the
same pass is not re-scanned.  The fuel argument only serves termination. -/
def removeBracketRefsF : Nat → Str → Str
  | 0, s => s
  | _ + 1, [] => []
  | fuel + 1, c :: cs =>
    match matchBracketLen (c :: cs) with
    | some n =>
      if 1 ≤ n then removeBracketRefsF fuel ((c :: cs).drop n)
      else c :: removeBracketRefsF fuel cs
    | none => c :: removeBracketRefsF fuel cs

def removeBracketRefs (s : Str) : Str := removeBracketRefsF s.length s

/-- Collapse every run of two or more whitespace characters into a single
space, leaving single whitespace characters unchanged, the fifth
replacement of sanitizeCitations.  Merging adjacent pairs step by step
yields exactly the run-at-a-time replacement of the source regex. -/
def collapseWsF : Nat → Str → Str
  | 0, s => s
  | _ + 1, [] => []
  | _ + 1, [c] => [c]
  | fuel + 1, c :: d :: rest =>
    if isJsSpace c && isJsSpace d then collapseWsF fuel (' ' :: rest)
    else c :: collapseWsF fuel (d :: rest)

def collapseWs (s : Str) : Str := collapseWsF s.length s

/-- JavaScript trim over the whitespace class. -/
def trimJs (s : Str) : Str :=
  ((s.dropWhile isJsSpace).reverse.dropWhile isJsSpace).reverse

/-- The five text transformations of sanitizeCitations in source order:
remove Private Use Area characters, remove turn-search and turn-news
tokens, remove cite tokens, remove bracketed numeric references, collapse
whitespace and trim. -/
def sanitizeChars (s : Str) : Str :=
  let s1 := s.filter (fun c => !(isPUA c))
  let s2 := scanRemoveWith matchTurnLen s1.length false s1
  let s3 := scanRemoveWith matchCiteLen s2.length false s2
  trimJs (collapseWs (removeBracketRefs s3))

/-- sanitizeCitations from src/node/src/trigger/utils/sanitize.ts: null
propagates, and an input whose sanitized text is empty yields null rather
than the empty string. -/
def sanitizeCitations (input : Option Str) : Option Str :=
  match input with
  | none => none
  | some s =>
    let text := sanitizeChars s
    if 0 < text.length then some text else none

/-- Follows the words of claim C10 for the phrase: a string whose content
consists entirely of citation markers and whitespace.  The string must
decompose into whitespace characters, Private Use Area characters,
bracketed numeric references, and maximal word-character runs each of which
is a cite, citation, citations or turn-search or turn-news token.  The fuel
only serves the structural termination argument; each step consumes at
least one character, so the string length suffices. -/
def isMarkerWord (w : Str) : Bool :=
  let lw := w.map toLowerAscii
  lw == citePat || lw == citationPat || lw == citationsPat ||
    (match matchTurnLen w with
     | some n => n == w.length
     | none => false)

def specMarkerOnlyF : Nat → Str → Bool
  | 0, s => s.isEmpty
  | _ + 1, [] => true
  | fuel + 1, c :: cs =>
    if isJsSpace c || isPUA c then specMarkerOnlyF fuel cs
    else if isWordChar c then
      isMarkerWord ((c :: cs).takeWhile isWordChar) &&
        specMarkerOnlyF fuel ((c :: cs).dropWhile isWordChar)
    else
      match matchBracketLen (c :: cs) with
      | some n => specMarkerOnlyF fuel ((c :: cs).drop n)
      | none => false

def specMarkerOnly (s : Str) : Bool := specMarkerOnlyF s.length s

/-- The value stored at every persistence call site of the form
sanitizeCitations(x) ?? x applied to a non-null string x. -/
def persistedText (s : Str) : Str := (sanitizeCitations (some s)).getD s

/-! ## Data model

In-memory images of the Prisma rows touched by the pipeline: Deal,
DealFile and Competitor, plus the structured payloads exchanged with the
AI provider. -/

structure TeamMember where
  name : Str
  role : Str
  description : Str
deriving DecidableEq, Repr

structure DealAnalysis where
  deal_name : Str
  deal_description : Str
  deal_founding_team : List TeamMember
deriving DecidableEq, Repr

structure CompetitorProfile where
  name : Str
  description : Option Str
  website : Option Str
  relevance : Option Str
deriving DecidableEq, Repr

structure DealRecord where
  id : Str
  companyName : Option Str
  description : Option Str
  uploadedText : Option Str
  foundingTeam : Option (List TeamMember)
  competitorsJson : Option (List CompetitorProfile)
deriving DecidableEq, Repr

structure DealFileRec where
  dealId : Str
  originalName : Str
  url : Str
  openaiFileId : Option Str
deriving DecidableEq, Repr

structure CompetitorRec where
  id : Nat
  dealId : Str
  name : Str
  description : Option Str
  website : Option Str
  relevance : Option Str
  competitorSource : Option Str
  score : Option Str
  competitorCategory : Option Str
  shortJustification : Option Str
  detailedJustification : Option Str
deriving DecidableEq, Repr

structure DB where
  deals : List DealRecord
  dealFiles : List DealFileRec
  competitors : List CompetitorRec
  nextCompetitorId : Nat
deriving DecidableEq, Repr

/-- JavaScript truthiness of a string: the empty string is falsy. -/
def jsTruthyS (s : Str) : Bool := !s.isEmpty

/-- JavaScript falsiness of an optional string: null, undefined and the
empty string are falsy. -/
def jsFalsyO : Option Str → Bool
  | none => true
  | some s => s.isEmpty

/-- The filter-by-Boolean idiom applied to an optional string. -/
def truthyOptS : Option Str → Option Str
  | none => none
  | some s => if s.isEmpty then none else some s

/-- The nullish coalescing operator of TypeScript on optional strings. -/
def jsNullish (a b : Option Str) : Option Str :=
  match a with
  | some v => some v
  | none => b

/-! ## File ingestion adapter: uploadToOpenAI.ts

The task loops over the input files in order; for each file it downloads
the blob and creates an OpenAI file.  Both effects are summed up in a
per-index outcome environment.  A failed item is pushed as a result with a
null identifier and an error string, and the loop continues. -/

structure S3File where
  s3Url : Str
  originalFilename : Str
  mimetype : Str
  size : Nat
deriving DecidableEq, Repr

structure UploadResult where
  originalFilename : Str
  openaiFileId : Option Str
  size : Nat
  mimetype : Str
  error : Option Str
deriving DecidableEq, Repr

inductive ItemOutcome where
  | uploaded (fileId : Str)
  | failed (err : Str)
deriving DecidableEq, Repr

/-- The result object pushed for one file: the success branch records the
OpenAI file id and no error; the catch branch records a null id and the
error string. -/
def itemResult (f : S3File) (o : ItemOutcome) : UploadResult :=
  match o with
  | .uploaded fid => ⟨f.originalFilename, some fid, f.size, f.mimetype, none⟩
  | .failed e => ⟨f.originalFilename, none, f.size, f.mimetype, some e⟩

def uploadLoop (env : Nat → ItemOutcome) : Nat → List S3File → List UploadResult
  | _, [] => []
  | i, f :: fs => itemResult f (env i) :: uploadLoop env (i + 1) fs

def noFilesMsg : Str := "No S3 files provided for OpenAI upload".data

/-- uploadToOpenAITask: throws when called with an empty file list,
otherwise returns one result per input file in input order. -/
def uploadToOpenAI (files : List S3File) (env : Nat → ItemOutcome) :
    Except Str (List UploadResult) :=
  if files.isEmpty then .error noFilesMsg
  else .ok (uploadLoop env 0 files)

/-! ## Write-back of OpenAI file ids onto DealFile rows

Both orchestrator variants run the same loop: index i ranges over the
payload file list, the result at the same index i supplies the identifier,
and the update selects rows by dealId, original name and url taken from
the payload file at index i. -/

def fileRowMatch (dealId : Str) (f : S3File) (row : DealFileRec) : Bool :=
  row.dealId == dealId && row.originalName == f.originalFilename && row.url == f.s3Url

/-- One iteration of the write-back loop: when the result at this index has
a truthy identifier, updateMany sets it on every row matching the payload
file of the same index. -/
def applyUploadResult (dealId : Str) (f : S3File) (r : UploadResult)
    (rows : List DealFileRec) : List DealFileRec :=
  match truthyOptS r.openaiFileId with
  | some fid =>
      rows.map (fun row =>
        if fileRowMatch dealId f row then { row with openaiFileId := some fid } else row)
  | none => rows

def writeBackLoop (dealId : Str) :
    List S3File → List UploadResult → List DealFileRec → List DealFileRec
  | [], _, rows => rows
  | _ :: fs, [], rows => writeBackLoop dealId fs [] rows
  | f :: fs, r :: rs, rows => writeBackLoop dealId fs rs (applyUploadResult dealId f r rows)

def writeBackFileIds (dealId : Str) (files : List S3File) (results : List UploadResult)
    (rows : List DealFileRec) : List DealFileRec :=
  if !files.isEmpty && !results.isEmpty then writeBackLoop dealId files results rows
  else rows

/-! ## Deal synthesis step: analyzeDeal.ts

The task is total: with no identifiers and no free text it returns a
sentinel record before any external call; otherwise the outcome of the
schema-constrained call decides between the parsed record and one of two
fallback records.  Every path returns normally, which the Except codomain
makes explicit. -/

inductive DealAIOutcome where
  | parsed (r : DealAnalysis)
  | parseFailed
  | threw (e : Str)
deriving DecidableEq, Repr

def unknownStr : Str := "Unknown".data

/-- The record returned when neither identifiers nor free text are given. -/
def noContentAnalysis : DealAnalysis :=
  ⟨unknownStr, "No documents or text provided for analysis".data,
   [⟨unknownStr, unknownStr, unknownStr⟩]⟩

/-- The record returned when the response could not be parsed. -/
def parseFallbackAnalysis : DealAnalysis :=
  ⟨"AI Analysis Incomplete".data, "Analysis completed but parsing failed".data,
   [⟨unknownStr, unknownStr, unknownStr⟩]⟩

/-- The record returned when the call threw. -/
def errorFallbackAnalysis : DealAnalysis :=
  ⟨"AI Analysis Failed".data, "Unable to analyze documents at this time".data,
   [⟨unknownStr, unknownStr, unknownStr⟩]⟩

def analyzeDealRun (openaiFileIds : List Str) (freeText : Option Str)
    (ai : DealAIOutcome) : Except Str DealAnalysis :=
  if openaiFileIds.isEmpty && jsFalsyO freeText then .ok noContentAnalysis
  else
    match ai with
    | .parsed r => .ok r
    | .parseFailed => .ok parseFallbackAnalysis
    | .threw _ => .ok errorFallbackAnalysis

/-! ## Competitor evaluation step: evaluateCompetitor

The task loads the competitor together with its deal and throws when either
is missing; the throw is modelled by the threwNotFound constructor, which
the task platform turns into a failed run.  The AI call and its parsing sit
inside a try block: a thrown call or a null parse is logged and the task
returns without touching the database.  Only a parsed result updates the
competitor row. -/

inductive ScoreVal where
  | num (n : Int)
  | uncertain
deriving DecidableEq, Repr

/-- String coercion applied to the score before persisting. -/
def scoreToString : ScoreVal → Str
  | .num n => (toString n).data
  | .uncertain => "UNCERTAIN".data

structure EvaluationResult where
  score : ScoreVal
  competitor_category : Str
  short_justification : Str
  detailed_justification : Str
deriving DecidableEq, Repr

inductive EvalOutcome where
  | parsed (r : EvaluationResult)
  | parseFailed
  | threw (e : Str)
deriving DecidableEq, Repr

inductive EvalStepResult where
  | threwNotFound (msg : Str)
  | failedLogged
  | saved (r : EvaluationResult)
deriving DecidableEq, Repr

def notFoundMsg : Str := "Competitor or deal not found".data

def findCompetitorWithDeal (db : DB) (cid : Nat) : Option (CompetitorRec × DealRecord) :=
  match db.competitors.find? (fun c => c.id == cid) with
  | none => none
  | some c =>
    match db.deals.find? (fun d => d.id == c.dealId) with
    | none => none
    | some d => some (c, d)

/-- The update persisted on success: score, category and both sanitized
justifications, with the nullish fallback to the raw text. -/
def updateCompetitorRow (db : DB) (cid : Nat) (p : EvaluationResult) : DB :=
  { db with competitors := db.competitors.map (fun c =>
      if c.id == cid then
        { c with
          score := some (scoreToString p.score),
          competitorCategory := some p.competitor_category,
          shortJustification := some (persistedText p.short_justification),
          detailedJustification := some (persistedText p.detailed_justification) }
      else c) }

def evaluateCompetitor (cid : Nat) (db : DB) (ai : EvalOutcome) : DB × EvalStepResult :=
  match findCompetitorWithDeal db cid with
  | none => (db, .threwNotFound notFoundMsg)
  | some _ =>
    match ai with
    | .threw _ => (db, .failedLogged)
    | .parseFailed => (db, .failedLogged)
    | .parsed p => (updateCompetitorRow db cid p, .saved p)

/-! ## Competitor discovery step: analyzeCompetitors

One run per category.  The deal and its files are loaded first (a missing
deal throws); when the files yield no truthy OpenAI identifiers, the run
stores an empty competitors object on the deal and returns before the AI
call.  Otherwise the AI call runs inside a try block: a throw yields the
fallback object without the competitorIds field; a null parse proceeds
through the save path with an empty list; a parsed list creates one
Competitor row per profile, with sanitized description and relevance. -/

inductive DiscoveryOutcome where
  | parsed (l : List CompetitorProfile)
  | parseFailed
  | threw (e : Str)
deriving DecidableEq, Repr

/-- Observable events of a run: a progress update of the metadata channel,
an outbound AI call, or an awaited batch of evaluation tasks. -/
inductive Event where
  | progress (label : Str) (pct : Nat)
  | aiCall
  | evalBatchAndWait (ids : List Nat)
deriving DecidableEq, Repr

structure AnalyzeCompetitorsOut where
  competitors : List CompetitorProfile
  competitorIds : Option (List Nat)
deriving DecidableEq, Repr

def dealIdRequiredMsg : Str := "dealId is required".data

def userIdRequiredMsg : Str := "userId is required".data

def ctRequiredMsg : Str := "competitorType is required".data

def dealNotFoundMsg : Str := "Deal not found".data

def contentRequiredMsg : Str := "Either s3Files or freeText must be provided".data

def ingestFailedMsg : Str := "OpenAI upload failed".data

def dealAnalysisFailedMsg : Str := "Deal analysis failed".data

def dealUpdateFailedMsg : Str := "Record to update not found".data

def noDocsLbl : Str := "No documents found, nothing to analyze".data

def savingLbl : Str := "Saving results".data

def completedLbl : Str := "Completed".data

def aiFailedLbl : Str := "AI analysis failed".data

def initLbl : Str := "Initializing upload process".data

def uploadLbl : Str := "Uploading files to OpenAI".data

def processLbl : Str := "Processing uploaded files".data

def startLbl : Str := "Starting document analysis".data

def updLbl : Str := "Updating deal with extracted information".data

def doneLbl : Str := "Upload orchestration completed".data

def fetchLbl (ct : Str) : Str := "Fetching deal and files (".data ++ ct ++ ")".data

def analyzeLbl (ct : Str) : Str := "Analyzing competitors (".data ++ ct ++ ")".data

/-- The truthy OpenAI file identifiers of the files of one deal. -/
def dealFileIds (db : DB) (dealId : Str) : List Str :=
  (db.dealFiles.filter (fun f => f.dealId == dealId)).filterMap
    (fun f => truthyOptS f.openaiFileId)

/-- One created Competitor row: description and relevance are sanitized
with the nullish fallback to the raw text, the website is stored raw, and
the competitorSource column records the category. -/
def mkCompetitorRow (cid : Nat) (dealId ct : Str) (c : CompetitorProfile) : CompetitorRec :=
  ⟨cid, dealId, c.name,
   jsNullish (sanitizeCitations c.description) c.description,
   c.website,
   jsNullish (sanitizeCitations c.relevance) c.relevance,
   some ct, none, none, none, none⟩

/-- The create loop of the save path: one insert per profile, collecting
the generated row identifiers in order. -/
def createMany (db : DB) (dealId ct : Str) : List CompetitorProfile → DB × List Nat
  | [] => (db, [])
  | c :: cs =>
    let row := mkCompetitorRow db.nextCompetitorId dealId ct c
    let db1 : DB := { db with competitors := db.competitors ++ [row],
                              nextCompetitorId := db.nextCompetitorId + 1 }
    let res := createMany db1 dealId ct cs
    (res.1, db.nextCompetitorId :: res.2)

/-- The deal update of the early-return branch, storing an empty
competitors object on the deal row. -/
def setDealCompetitorsJson (db : DB) (dealId : Str) : DB :=
  { db with deals := db.deals.map (fun d =>
      if d.id == dealId then { d with competitorsJson := some [] } else d) }

def discOkEvents (ct : Str) : List Event :=
  [.progress (fetchLbl ct) 10, .progress (analyzeLbl ct) 40, .aiCall,
   .progress savingLbl 80, .progress completedLbl 100]

def analyzeCompetitors (dealId ct : Str) (db : DB) (ai : DiscoveryOutcome) :
    Except Str (DB × AnalyzeCompetitorsOut × List Event) :=
  if dealId.isEmpty then .error dealIdRequiredMsg
  else if ct.isEmpty then .error ctRequiredMsg
  else
    match db.deals.find? (fun d => d.id == dealId) with
    | none => .error dealNotFoundMsg
    | some _ =>
      let fids := dealFileIds db dealId
      if fids.isEmpty then
        .ok (setDealCompetitorsJson db dealId, ⟨[], none⟩,
          [.progress (fetchLbl ct) 10, .progress noDocsLbl 100])
      else
        match ai with
        | .threw _ =>
          .ok (db, ⟨[], none⟩,
            [.progress (fetchLbl ct) 10, .progress (analyzeLbl ct) 40, .aiCall,
             .progress aiFailedLbl 100])
        | .parseFailed => .ok (db, ⟨[], some []⟩, discOkEvents ct)
        | .parsed l =>
          let res := createMany db dealId ct l
          .ok (res.1, ⟨l, some res.2⟩, discOkEvents ct)

/-! ## Orchestrator: uploadOrchestrator with category fan-out

The unnamed orchestrator variant sequences: payload validation, the awaited
ingestion child run, the write-back of file identifiers, one awaited batch
holding the deal analysis run plus one discovery run per competitor type,
collection of the created competitor identifiers from the successful
discovery runs, one awaited batch of evaluation runs over those
identifiers, the deal update, and the final read.  Failed discovery runs
are logged and skipped; evaluation run results are not inspected.  The run
throws on validation errors, on a failed ingestion run, on a failed deal
analysis run, and on a deal update that finds no record. -/

def ALL_COMPETITOR_TYPES : List Str :=
  ["yc-companies".data, "open-source".data, "early-stage-vc".data,
   "well-funded-vc".data, "incumbents".data]

structure Payload where
  dealId : Str
  userId : Str
  s3Files : List S3File
  freeText : Option Str
deriving DecidableEq, Repr

/-- The external world of one orchestrator run: run-level success of the
awaited child runs, the per-item ingestion outcomes, and the AI outcome of
the deal analysis, of each discovery category and of each evaluation. -/
structure Env where
  ingestRunOk : Bool
  itemOutcome : Nat → ItemOutcome
  dealRunOk : Bool
  dealAI : DealAIOutcome
  discRunOk : Str → Bool
  discAI : Str → DiscoveryOutcome
  evalRunOk : Nat → Bool
  evalAI : Nat → EvalOutcome

/-- Output of the ingestion child run; stays empty when no files were
provided, in which case the upload step is skipped. -/
def ingestResults (p : Payload) (env : Env) : List UploadResult :=
  if p.s3Files.isEmpty then [] else uploadLoop env.itemOutcome 0 p.s3Files

/-- map over openaiFileId then filter Boolean. -/
def truthyIds (results : List UploadResult) : List Str :=
  results.filterMap (fun r => truthyOptS r.openaiFileId)

def dbAfterWriteBack (p : Payload) (env : Env) (db : DB) : DB :=
  { db with dealFiles :=
      writeBackFileIds p.dealId p.s3Files (ingestResults p env) db.dealFiles }

/-- One discovery run inside the analysis batch: a failed run is logged and
contributes nothing; a successful run replaces the database and appends its
competitorIds field when present. -/
def discoveryStep (p : Payload) (env : Env) (acc : DB × List Nat) (ct : Str) :
    DB × List Nat :=
  if env.discRunOk ct then
    match analyzeCompetitors p.dealId ct acc.1 (env.discAI ct) with
    | .error _ => acc
    | .ok (db1, out, _) =>
      match out.competitorIds with
      | some ids => (db1, acc.2 ++ ids)
      | none => (db1, acc.2)
  else acc

def discoveryPhase (p : Payload) (env : Env) (db : DB) : DB × List Nat :=
  ALL_COMPETITOR_TYPES.foldl (discoveryStep p env) (db, [])

def collectedIds (p : Payload) (env : Env) (db : DB) : List Nat :=
  (discoveryPhase p env (dbAfterWriteBack p env db)).2

def dbAfterDiscovery (p : Payload) (env : Env) (db : DB) : DB :=
  (discoveryPhase p env (dbAfterWriteBack p env db)).1

/-- One evaluation run of the awaited evaluation batch.  The orchestrator
does not inspect the run results, so a failed run only means the database
is left as it was. -/
def evalStep (env : Env) (db : DB) (cid : Nat) : DB :=
  if env.evalRunOk cid then (evaluateCompetitor cid db (env.evalAI cid)).1 else db

def dbAfterEval (p : Payload) (env : Env) (db : DB) : DB :=
  (collectedIds p env db).foldl (evalStep env) (dbAfterDiscovery p env db)

/-- The deal update of the orchestrator; a missing record makes the update
call throw. -/
def updateDeal (db : DB) (dealId : Str) (a : DealAnalysis) : Option DB :=
  if db.deals.any (fun d => d.id == dealId) then
    some { db with deals := db.deals.map (fun d =>
      if d.id == dealId then
        { d with companyName := some a.deal_name,
                 description := some a.deal_description,
                 foundingTeam := some a.deal_founding_team }
      else d) }
  else none

def findDealWithFiles (db : DB) (dealId : Str) : Option (DealRecord × List DealFileRec) :=
  match db.deals.find? (fun d => d.id == dealId) with
  | none => none
  | some d => some (d, db.dealFiles.filter (fun f => f.dealId == dealId))

/-- The metadata and batch events of a successful orchestrator run, in
program order: the progress updates, then the awaited evaluation batch
(present only when identifiers were collected), then the final progress
updates ending at one hundred. -/
def orchTrace (p : Payload) (env : Env) (db : DB) : List Event :=
  [Event.progress initLbl 5] ++
  (if p.s3Files.isEmpty then [] else [Event.progress uploadLbl 15]) ++
  [Event.progress processLbl 40, Event.progress startLbl 50] ++
  (if (collectedIds p env db).isEmpty then []
   else [Event.evalBatchAndWait (collectedIds p env db)]) ++
  [Event.progress updLbl 80, Event.progress doneLbl 100]

structure OrchResult where
  db : DB
  trace : List Event
  deal : Option (DealRecord × List DealFileRec)
deriving DecidableEq, Repr

def uploadOrchestrator (p : Payload) (env : Env) (db : DB) : Except Str OrchResult :=
  if !(jsTruthyS p.dealId) then .error dealIdRequiredMsg
  else if !(jsTruthyS p.userId) then .error userIdRequiredMsg
  else if p.s3Files.isEmpty && jsFalsyO p.freeText then .error contentRequiredMsg
  else if !p.s3Files.isEmpty && !env.ingestRunOk then .error ingestFailedMsg
  else if !env.dealRunOk then .error dealAnalysisFailedMsg
  else
    match analyzeDealRun (truthyIds (ingestResults p env)) p.freeText env.dealAI with
    | .error e => .error e
    | .ok a =>
      match updateDeal (dbAfterEval p env db) p.dealId a with
      | none => .error dealUpdateFailedMsg
      | some db4 => .ok ⟨db4, orchTrace p env db, findDealWithFiles db4 p.dealId⟩

/-- Rows created for a profile list starting at a given identifier, the
closed form of the create loop. -/
def rowsFrom (startId : Nat) (dealId ct : Str) : List CompetitorProfile → List CompetitorRec
  | [] => []
  | c :: cs => mkCompetitorRow startId dealId ct c :: rowsFrom (startId + 1) dealId ct cs

/-- Identifiers allocated for a profile list starting at a given value. -/
def idsFrom (startId : Nat) : List CompetitorProfile → List Nat
  | [] => []
  | _ :: cs => startId :: idsFrom (startId + 1) cs

/-! ## Concrete fixtures used by counterexamples and witnesses -/

def exDealId : Str := "d".data

def fileA : S3File := ⟨"u1".data, "a".data, "m".data, 1⟩

def fileB : S3File := ⟨"u2".data, "b".data, "m".data, 1⟩

def resA : UploadResult := ⟨"a".data, some ("idA".data), 1, "m".data, none⟩

def resB : UploadResult := ⟨"b".data, some ("idB".data), 1, "m".data, none⟩

def rowA : DealFileRec := ⟨"d".data, "a".data, "u1".data, none⟩

def rowB : DealFileRec := ⟨"d".data, "b".data, "u2".data, none⟩

def dealRec1 : DealRecord := ⟨"d".data, none, none, none, none, none⟩

def dbEmpty : DB := ⟨[], [], [], 0⟩

def evalParsedSample : EvaluationResult :=
  ⟨ScoreVal.num 5, "incumbent".data, "s".data, "t".data⟩

def compRec1 : CompetitorRec :=
  ⟨0, "d".data, "n".data, none, none, none, some ("early-stage-vc".data),
   some ("7".data), some ("incumbent".data), some ("sj".data), some ("dj".data)⟩

def dbWithComp : DB := ⟨[dealRec1], [], [compRec1], 1⟩

def fileNoId : DealFileRec := ⟨"d".data, "n".data, "u1".data, none⟩

def dbNoIds : DB := ⟨[dealRec1], [fileNoId], [], 0⟩

def fileS3 : S3File := ⟨"u1".data, "a".data, "m".data, 1⟩

def pWithFile : Payload := ⟨"d".data, "u".data, [fileS3], none⟩

def noContentPayload : Payload := ⟨"d".data, "u".data, [], none⟩

def db0 : DB := ⟨[dealRec1], [], [], 0⟩

def envIngestFail : Env :=
  ⟨false, fun _ => ItemOutcome.failed ("e".data), true, DealAIOutcome.parseFailed,
   fun _ => true, fun _ => DiscoveryOutcome.parseFailed,
   fun _ => true, fun _ => EvalOutcome.parseFailed⟩

def envAllFail : Env :=
  ⟨true, fun _ => ItemOutcome.failed ("e".data), true, DealAIOutcome.threw ("E".data),
   fun _ => true, fun _ => DiscoveryOutcome.threw ("E".data),
   fun _ => true, fun _ => EvalOutcome.threw ("E".data)⟩

def p9 : Payload := ⟨"d".data, "u".data, [], some ("context".data)⟩

def file9 : DealFileRec := ⟨"d".data, "n".data, "u1".data, some ("fid".data)⟩

def db9 : DB := ⟨[dealRec1], [file9], [], 0⟩

/-- Environment of the branch-isolation scenario: discovery parses L for
category b and throws for every other category, and every evaluation call
throws. -/
def env9 (b : Str) (L : List CompetitorProfile) (a : DealAIOutcome) : Env :=
  ⟨true, fun _ => ItemOutcome.failed ("e".data), true, a,
   fun _ => true,
   fun c => if c == b then DiscoveryOutcome.parsed L else DiscoveryOutcome.threw ("E".data),
   fun _ => true, fun _ => EvalOutcome.threw ("E".data)⟩

def profile1 : CompetitorProfile := ⟨"X".data, none, none, none⟩

def c2Input : Str := "Foo [1] bar cite turn2search3 baz".data

def c2Output : Str := "Foo bar baz".data

def nestedRefInput : Str := "[1[2]3]".data

def markerGlueInput : Str := "cite\uE000cite".data

def markerOnlyInput : Str := "[1] cite".data

def envC7 : Nat → ItemOutcome :=
  fun i => if i == 0 then ItemOutcome.uploaded ("fid".data) else ItemOutcome.failed ("e".data)

/-- The competitor table and identifier counter after the single
successful discovery branch of the isolation scenario. -/
def db9disc (b : Str) (L : List CompetitorProfile) : DB :=
  { db9 with competitors := rowsFrom 0 ("d".data) b L, nextCompetitorId := L.length }

/-! ## Claims about citation sanitization -/

/-- Claim C2, counterexample.  sanitizeCitations is not idempotent: one
global-replacement pass deletes the inner reference of the nested input and
thereby uncovers a new bracketed numeric reference, which only a second
application removes, after which the text is empty and the result becomes
null.  So the double application differs from the single one. -/
theorem C2_counterexample :
    sanitizeCitations (some nestedRefInput) = some ("[13]".data) ∧
    sanitizeCitations (sanitizeCitations (some nestedRefInput)) = none ∧
    sanitizeCitations (sanitizeCitations (some nestedRefInput)) ≠
      sanitizeCitations (some nestedRefInput) := by
  refine ⟨by decide, by decide, by decide⟩

/-- Claim C2, amended: the documented example evaluates exactly as the
specification states, and on that example a second application of
sanitizeCitations is the identity; but idempotence does not hold for every
input string, as the nested-reference counterexample shows. -/
theorem C2_amended_thm :
    sanitizeCitations (some c2Input) = some c2Output ∧
    sanitizeCitations (sanitizeCitations (some c2Input)) =
      sanitizeCitations (some c2Input) := by
  refine ⟨by decide, by decide⟩

/-- Claim C10, counterexample.  A string consisting entirely of citation
markers need not sanitize to null: removing the Private Use Area character
first glues the two cite tokens into one word with no interior word
boundary, so the later cite pass removes nothing and a non-null string is
returned. -/
theorem C10_counterexample :
    specMarkerOnly markerGlueInput = true ∧
    sanitizeCitations (some markerGlueInput) = some ("citecite".data) ∧
    sanitizeCitations (some markerGlueInput) ≠ none := by
  refine ⟨by decide, by decide, by decide⟩

/-- Claim C10, amended: sanitizeCitations maps null to null and never
returns the empty string; whenever the sanitized text is empty it returns
null, and at every persistence site of the form sanitizeCitations x with
nullish fallback to x, such input is stored in its original form.  Typical
marker-only inputs such as a bracketed reference next to a cite token do
sanitize to null, but not every marker-only string does. -/
theorem C10_amended_thm :
    sanitizeCitations none = none ∧
    (∀ s t, sanitizeCitations (some s) = some t → t ≠ []) ∧
    (∀ s, sanitizeCitations (some s) = none → persistedText s = s) ∧
    (specMarkerOnly markerOnlyInput = true ∧
      sanitizeCitations (some markerOnlyInput) = none ∧
      persistedText markerOnlyInput = markerOnlyInput) := by
  refine ⟨rfl, ?_, ?_, by decide⟩
  · intro s t h
    have h1 : (if 0 < (sanitizeChars s).length then some (sanitizeChars s) else none)
        = some t := h
    by_cases h0 : 0 < (sanitizeChars s).length
    · rw [if_pos h0] at h1
      cases h1
      intro hnil
      rw [hnil] at h0
      simp at h0
    · rw [if_neg h0] at h1
      cases h1
  · intro s h
    unfold persistedText
    rw [h]
    rfl

/-- Witness for the amended claim C10 at a concrete input. -/
theorem C10_amended_witness : ("a".data : Str) ≠ [] :=
  C10_amended_thm.2.1 ("a".data) ("a".data) (by decide)

/-! ## Claims about the deal synthesis and evaluation steps -/

/-- Claim C3, counterexample.  Invoked with an empty identifier list and no
free text, the synthesis step does not fail: it returns a normal result,
the sentinel record, before any external call.  The Except codomain of the
embedding records every throw of the source, and this input reaches none. -/
theorem C3_counterexample :
    analyzeDealRun [] none (DealAIOutcome.threw ("boom".data)) =
      Except.ok noContentAnalysis := rfl

/-- Claim C3, amended: with no identifiers and no free text the synthesis
step returns the sentinel record as a normal result for every outcome of
the provider; the fail-fast validation error for missing content is raised
by the orchestrator, before the synthesis step is ever started. -/
theorem C3_amended_thm :
    (∀ ai, analyzeDealRun [] none ai = Except.ok noContentAnalysis) ∧
    (∀ env db, uploadOrchestrator noContentPayload env db =
      Except.error contentRequiredMsg) := by
  constructor
  · intro ai
    cases ai <;> rfl
  · intro env db
    rfl

/-- Claim C4, counterexample.  When the competitor record is not found the
evaluation step does not log and return: it throws, failing the run.  The
threwNotFound constructor models the uncaught throw of the source. -/
theorem C4_counterexample :
    evaluateCompetitor 7 dbEmpty (EvalOutcome.parsed evalParsedSample) =
      (dbEmpty, EvalStepResult.threwNotFound notFoundMsg) := by decide

/-- Claim C4, amended: on every failure, whether the AI call threw, the
response failed to parse, or the competitor or its deal is missing, the
evaluation step writes nothing, so every previously stored score, category
and justification is left unchanged; the thrown-call and failed-parse cases
are logged and return normally, while the record-not-found case throws and
thereby propagates as a failed run. -/
theorem C4_amended_thm (cid : Nat) (db : DB) (ai : EvalOutcome)
    (h : (∀ r, ai ≠ EvalOutcome.parsed r) ∨ findCompetitorWithDeal db cid = none) :
    (evaluateCompetitor cid db ai).1 = db ∧
    ((evaluateCompetitor cid db ai).2 = EvalStepResult.threwNotFound notFoundMsg ∨
     (evaluateCompetitor cid db ai).2 = EvalStepResult.failedLogged) := by
  unfold evaluateCompetitor
  cases hf : findCompetitorWithDeal db cid with
  | none => exact ⟨rfl, Or.inl rfl⟩
  | some cd =>
    cases ai with
    | threw e => exact ⟨rfl, Or.inr rfl⟩
    | parseFailed => exact ⟨rfl, Or.inr rfl⟩
    | parsed r =>
      rcases h with h | h
      · exact absurd rfl (h r)
      · rw [hf] at h
        cases h

/-- Witness for the amended claim C4: a competitor with a previously stored
score and justification, on which the evaluation call throws; the database
is returned unchanged. -/
theorem C4_amended_witness :
    (evaluateCompetitor 0 dbWithComp (EvalOutcome.threw ("boom".data))).1 = dbWithComp ∧
    ((evaluateCompetitor 0 dbWithComp (EvalOutcome.threw ("boom".data))).2 =
        EvalStepResult.threwNotFound notFoundMsg ∨
     (evaluateCompetitor 0 dbWithComp (EvalOutcome.threw ("boom".data))).2 =
        EvalStepResult.failedLogged) :=
  C4_amended_thm 0 dbWithComp (EvalOutcome.threw ("boom".data))
    (Or.inl (fun r hr => by cases hr))

/-! ## Claim about the discovery short-circuit -/

/-- Claim C8: when the deal exists but its document set yields no truthy
OpenAI identifiers, the discovery step returns the empty competitor list,
stores the empty competitors object on the deal, marks the branch complete
with a final progress event, and emits no AI call. -/
theorem C8_thm (dealId ct : Str) (db : DB) (ai : DiscoveryOutcome)
    (h1 : dealId.isEmpty = false) (h2 : ct.isEmpty = false)
    (h3 : (db.deals.find? (fun d => d.id == dealId)).isSome = true)
    (h4 : dealFileIds db dealId = []) :
    ∃ db1 ev, analyzeCompetitors dealId ct db ai =
        Except.ok (db1, ⟨[], none⟩, ev) ∧
      db1 = setDealCompetitorsJson db dealId ∧
      Event.aiCall ∉ ev ∧
      ev.getLast? = some (Event.progress noDocsLbl 100) := by
  rcases Option.isSome_iff_exists.mp h3 with ⟨d, hd⟩
  refine ⟨setDealCompetitorsJson db dealId,
    [Event.progress (fetchLbl ct) 10, Event.progress noDocsLbl 100], ?_, rfl, ?_, ?_⟩
  · unfold analyzeCompetitors
    rw [h1, h2, hd]
    simp [h4]
  · simp
  · rfl

/-- Witness for claim C8: a deal with one file that has no OpenAI
identifier. -/
theorem C8_witness :
    ∃ db1 ev, analyzeCompetitors ("d".data) ("incumbents".data) dbNoIds
        (DiscoveryOutcome.threw ("E".data)) =
        Except.ok (db1, ⟨[], none⟩, ev) ∧
      db1 = setDealCompetitorsJson dbNoIds ("d".data) ∧
      Event.aiCall ∉ ev ∧
      ev.getLast? = some (Event.progress noDocsLbl 100) :=
  C8_thm ("d".data) ("incumbents".data) dbNoIds (DiscoveryOutcome.threw ("E".data))
    (by decide) (by decide) (by decide) (by decide)

/-! ## Claim about the ingestion adapter -/

theorem uploadLoop_length (env : Nat → ItemOutcome) :
    ∀ (k : Nat) (fs : List S3File), (uploadLoop env k fs).length = fs.length := by
  intro k fs
  induction fs generalizing k with
  | nil => rfl
  | cons f fs ih => simp [uploadLoop, ih]

theorem uploadLoop_get (env : Nat → ItemOutcome) :
    ∀ (fs : List S3File) (k i : Nat),
      (uploadLoop env k fs).get? i =
        (fs.get? i).map (fun f => itemResult f (env (k + i))) := by
  intro fs
  induction fs with
  | nil => intro k i; cases i <;> rfl
  | cons f fs ih =>
    intro k i
    cases i with
    | zero => rfl
    | succ j =>
      have harith : k + 1 + j = k + (j + 1) := by omega
      calc (uploadLoop env k (f :: fs)).get? (j + 1)
          = (uploadLoop env (k + 1) fs).get? j := rfl
        _ = (fs.get? j).map (fun g => itemResult g (env (k + 1 + j))) := ih (k + 1) j
        _ = ((f :: fs).get? (j + 1)).map (fun g => itemResult g (env (k + (j + 1)))) := by
              rw [harith]
              rfl

/-- Claim C7: on a non-empty file list the ingestion adapter returns
normally with one result per input file, in input order; the result at
index i is computed from the file at index i and that item alone, so a
failed sibling cannot affect it, and each result either carries an
identifier with no error or a null identifier with an error. -/
theorem C7_thm (files : List S3File) (env : Nat → ItemOutcome) (h : files ≠ []) :
    ∃ rs, uploadToOpenAI files env = Except.ok rs ∧
      rs.length = files.length ∧
      ∀ i, i < files.length →
        ∃ f, files.get? i = some f ∧
          rs.get? i = some (itemResult f (env i)) ∧
          (itemResult f (env i)).originalFilename = f.originalFilename ∧
          (((itemResult f (env i)).openaiFileId ≠ none ∧
              (itemResult f (env i)).error = none) ∨
           ((itemResult f (env i)).openaiFileId = none ∧
              (itemResult f (env i)).error ≠ none)) := by
  have hne : files.isEmpty = false := by
    cases files with
    | nil => exact absurd rfl h
    | cons a l => rfl
  refine ⟨uploadLoop env 0 files, ?_, uploadLoop_length env 0 files, ?_⟩
  · unfold uploadToOpenAI
    rw [hne]
    rfl
  · intro i hi
    refine ⟨files.get ⟨i, hi⟩, List.get?_eq_get hi, ?_, ?_, ?_⟩
    · rw [uploadLoop_get env files 0 i, List.get?_eq_get hi]
      simp
    · cases env i <;> rfl
    · cases env i with
      | uploaded fid => exact Or.inl ⟨by simp [itemResult], rfl⟩
      | failed e => exact Or.inr ⟨rfl, by simp [itemResult]⟩

/-- Witness for claim C7 at a two-file input whose second item fails. -/
theorem C7_witness :
    ∃ rs, uploadToOpenAI [fileA, fileB] envC7 = Except.ok rs ∧
      rs.length = ([fileA, fileB] : List S3File).length ∧
      ∀ i, i < ([fileA, fileB] : List S3File).length →
        ∃ f, ([fileA, fileB] : List S3File).get? i = some f ∧
          rs.get? i = some (itemResult f (envC7 i)) ∧
          (itemResult f (envC7 i)).originalFilename = f.originalFilename ∧
          (((itemResult f (envC7 i)).openaiFileId ≠ none ∧
              (itemResult f (envC7 i)).error = none) ∨
           ((itemResult f (envC7 i)).openaiFileId = none ∧
              (itemResult f (envC7 i)).error ≠ none)) :=
  C7_thm [fileA, fileB] envC7 (by decide)

/-! ## Claim about the identifier write-back -/

theorem writeBackLoop_results_nil (dealId : Str) :
    ∀ (fs : List S3File) (rows : List DealFileRec),
      writeBackLoop dealId fs [] rows = rows := by
  intro fs
  induction fs with
  | nil => intro rows; rfl
  | cons f fs ih => intro rows; exact ih rows

theorem applyUploadResult_get (dealId : Str) (f : S3File) (r : UploadResult)
    (rows : List DealFileRec) (k : Nat) :
    (applyUploadResult dealId f r rows).get? k =
      (rows.get? k).map (fun row =>
        match truthyOptS r.openaiFileId with
        | some fid =>
          if fileRowMatch dealId f row then { row with openaiFileId := some fid } else row
        | none => row) := by
  unfold applyUploadResult
  cases truthyOptS r.openaiFileId with
  | none =>
    cases rows.get? k <;> rfl
  | some fid =>
    rw [List.get?_map]

theorem writeBackLoop_untouched (dealId : Str) :
    ∀ (fs : List S3File) (rs : List UploadResult) (rows : List DealFileRec)
      (k : Nat) (row : DealFileRec),
      rows.get? k = some row →
      (∀ f ∈ fs, fileRowMatch dealId f row = false) →
      (writeBackLoop dealId fs rs rows).get? k = some row := by
  intro fs
  induction fs with
  | nil => intro rs rows k row hk _; exact hk
  | cons f fs ih =>
    intro rs rows k row hk hall
    cases rs with
    | nil =>
      rw [writeBackLoop_results_nil]
      exact hk
    | cons r rs =>
      have hm : fileRowMatch dealId f row = false := hall f (by simp)
      have hrows : (applyUploadResult dealId f r rows).get? k = some row := by
        rw [applyUploadResult_get, hk]
        cases truthyOptS r.openaiFileId <;> simp [hm]
      exact ih rs _ k row hrows (fun g hg => hall g (by simp [hg]))

/-- The key fields of a row are untouched by the write-back update, so row
matching is stable under it. -/
theorem fileRowMatch_update (dealId : Str) (g : S3File) (row : DealFileRec) (x : Option Str) :
    fileRowMatch dealId g { row with openaiFileId := x } = fileRowMatch dealId g row := rfl

theorem writeBackLoop_get (dealId : Str) :
    ∀ (fs : List S3File) (rs : List UploadResult) (rows : List DealFileRec)
      (i k : Nat) (hi : i < fs.length) (row : DealFileRec),
      rows.get? k = some row →
      fileRowMatch dealId (fs.get ⟨i, hi⟩) row = true →
      (∀ j, (hj : j < fs.length) → j ≠ i →
        ¬((fs.get ⟨j, hj⟩).originalFilename = (fs.get ⟨i, hi⟩).originalFilename ∧
          (fs.get ⟨j, hj⟩).s3Url = (fs.get ⟨i, hi⟩).s3Url)) →
      (writeBackLoop dealId fs rs rows).get? k =
        some (match rs.get? i with
              | some r =>
                match truthyOptS r.openaiFileId with
                | some fid => { row with openaiFileId := some fid }
                | none => row
              | none => row) := by
  intro fs
  induction fs with
  | nil =>
    intro rs rows i k hi
    exact absurd hi (by simp)
  | cons f fs ih =>
    intro rs rows i k hi row hk hmatch huniq
    have hfields : row.dealId = dealId ∧
        row.originalName = ((f :: fs).get ⟨i, hi⟩).originalFilename ∧
        row.url = ((f :: fs).get ⟨i, hi⟩).s3Url := by
      have hm := hmatch
      simp only [fileRowMatch, Bool.and_eq_true, beq_iff_eq] at hm
      exact ⟨hm.1.1, hm.1.2, hm.2⟩
    cases rs with
    | nil =>
      rw [writeBackLoop_results_nil]
      cases i <;> simpa using hk
    | cons r rs =>
      cases i with
      | zero =>
        have hother : ∀ g ∈ fs, fileRowMatch dealId g row = false := by
          intro g hg
          rcases List.mem_iff_get.mp hg with ⟨⟨j, hj⟩, hget⟩
          have hkey := huniq (j + 1) (Nat.succ_lt_succ hj) (Nat.succ_ne_zero j)
          have hgj : (f :: fs).get ⟨j + 1, Nat.succ_lt_succ hj⟩ = g := hget
          rw [hgj] at hkey
          rcases not_and_or.mp hkey with hne | hne
          · have hb : (row.originalName == g.originalFilename) = false := by
              rw [hfields.2.1]
              exact beq_eq_false_iff_ne.mpr (fun hh => hne hh.symm)
            simp [fileRowMatch, hb]
          · have hb : (row.url == g.s3Url) = false := by
              rw [hfields.2.2]
              exact beq_eq_false_iff_ne.mpr (fun hh => hne hh.symm)
            simp [fileRowMatch, hb]
        cases htr : truthyOptS r.openaiFileId with
        | none =>
          have happ : applyUploadResult dealId f r rows = rows := by
            unfold applyUploadResult
            rw [htr]
          show (writeBackLoop dealId fs rs (applyUploadResult dealId f r rows)).get? k = _
          rw [happ, writeBackLoop_untouched dealId fs rs rows k row hk hother]
          simp [htr]
        | some fid =>
          have hmatch0 : fileRowMatch dealId f row = true := hmatch
          have happ : (applyUploadResult dealId f r rows).get? k =
              some { row with openaiFileId := some fid } := by
            rw [applyUploadResult_get, hk, htr]
            simp [hmatch0]
          have hother2 : ∀ g ∈ fs,
              fileRowMatch dealId g { row with openaiFileId := some fid } = false := by
            intro g hg
            rw [fileRowMatch_update]
            exact hother g hg
          show (writeBackLoop dealId fs rs (applyUploadResult dealId f r rows)).get? k = _
          rw [writeBackLoop_untouched dealId fs rs _ k _ happ hother2]
          simp [htr]
      | succ i' =>
        have hne0 := huniq 0 (Nat.succ_pos _) (Ne.symm (Nat.succ_ne_zero i'))
        have hmf : fileRowMatch dealId f row = false := by
          rcases not_and_or.mp hne0 with hne | hne
          · have hb : (row.originalName == f.originalFilename) = false := by
              rw [hfields.2.1]
              exact beq_eq_false_iff_ne.mpr (fun hh => hne hh.symm)
            simp [fileRowMatch, hb]
          · have hb : (row.url == f.s3Url) = false := by
              rw [hfields.2.2]
              exact beq_eq_false_iff_ne.mpr (fun hh => hne hh.symm)
            simp [fileRowMatch, hb]
        have hrows1 : (applyUploadResult dealId f r rows).get? k = some row := by
          rw [applyUploadResult_get, hk]
          cases truthyOptS r.openaiFileId <;> simp [hmf]
        exact ih rs (applyUploadResult dealId f r rows) i' k
          (Nat.lt_of_succ_lt_succ hi) row hrows1 hmatch
          (fun j hj hne =>
            huniq (j + 1) (Nat.succ_lt_succ hj) (fun hh => hne (Nat.succ_injective hh)))

/-- Claim C1, counterexample.  The write-back pairs the result list with
the input file list by array position, not by the filename and url pair:
when the adapter results come back permuted, each one still carrying its
own original filename, the row of document a receives the identifier that
was produced for document b.  The row to update is selected by the
filename and url of the input file, but the identifier written there is
taken from the result at the same input index. -/
theorem C1_counterexample :
    resB.originalFilename = fileB.originalFilename ∧
    resA.originalFilename = fileA.originalFilename ∧
    resA.openaiFileId = some ("idA".data) ∧
    (writeBackFileIds exDealId [fileA, fileB] [resB, resA] [rowA, rowB]).map
        (fun row => row.openaiFileId) = [some ("idB".data), some ("idA".data)] ∧
    ("idB".data : Str) ≠ "idA".data := by
  refine ⟨rfl, rfl, rfl, by decide, by decide⟩

/-- Claim C1, amended: the DealFile row to update is selected by the pair
of original filename and storage url taken from the input file at index i,
and the identifier written onto it is the one of the result at the same
index i; when the key of file i is unique among the input files, a row
matching that key ends with exactly the identifier of the result at
position i, or is unchanged when that result is missing or carries no
truthy identifier.  The assignment is therefore correct when the result
list is aligned with the input list, which the ingestion adapter
guarantees, but not under a permutation of the result list. -/
theorem C1_amended_thm (dealId : Str) (files : List S3File)
    (results : List UploadResult) (rows : List DealFileRec) (i k : Nat)
    (hi : i < files.length) (row : DealFileRec)
    (hrow : rows.get? k = some row)
    (hmatch : fileRowMatch dealId (files.get ⟨i, hi⟩) row = true)
    (huniq : ∀ j, (hj : j < files.length) → j ≠ i →
      ¬((files.get ⟨j, hj⟩).originalFilename = (files.get ⟨i, hi⟩).originalFilename ∧
        (files.get ⟨j, hj⟩).s3Url = (files.get ⟨i, hi⟩).s3Url)) :
    (writeBackFileIds dealId files results rows).get? k =
      some (match results.get? i with
            | some r =>
              match truthyOptS r.openaiFileId with
              | some fid => { row with openaiFileId := some fid }
              | none => row
            | none => row) := by
  unfold writeBackFileIds
  have hfe : files.isEmpty = false := by
    cases files with
    | nil => simp at hi
    | cons a l => rfl
  cases results with
  | nil =>
    rw [hfe]
    simp only [Bool.not_false, Bool.true_and, Bool.not_true, Bool.and_false]
    cases i <;> simpa using hrow
  | cons r rs =>
    rw [hfe]
    simp only [Bool.not_false, Bool.true_and, List.isEmpty_cons, if_true]
    exact writeBackLoop_get dealId files (r :: rs) rows i k hi row hrow hmatch huniq

/-- Witness for the amended claim C1: with the result list aligned to the
input list, the row of document a receives the identifier produced for
document a. -/
theorem C1_amended_witness :
    (writeBackFileIds exDealId [fileA, fileB] [resA, resB] [rowA, rowB]).get? 0 =
      some { rowA with openaiFileId := some ("idA".data) } :=
  C1_amended_thm exDealId [fileA, fileB] [resA, resB] [rowA, rowB] 0 0
    (by decide) rowA rfl (by decide) (by decide)

/-! ## Helper lemmas about the orchestrator stages -/

theorem analyzeDealRun_ok (ids : List Str) (ft : Option Str) (ai : DealAIOutcome) :
    ∃ a, analyzeDealRun ids ft ai = Except.ok a := by
  unfold analyzeDealRun
  split
  · exact ⟨_, rfl⟩
  · cases ai <;> exact ⟨_, rfl⟩

theorem createMany_spec (dealId ct : Str) :
    ∀ (l : List CompetitorProfile) (db : DB),
      createMany db dealId ct l =
        ({ db with
           competitors := db.competitors ++ rowsFrom db.nextCompetitorId dealId ct l,
           nextCompetitorId := db.nextCompetitorId + l.length },
         idsFrom db.nextCompetitorId l) := by
  intro l
  induction l with
  | nil =>
    intro db
    simp [createMany, rowsFrom, idsFrom]
  | cons c cs ih =>
    intro db
    simp only [createMany]
    rw [ih]
    have hn : db.nextCompetitorId + 1 + cs.length = db.nextCompetitorId + (cs.length + 1) := by
      omega
    simp [rowsFrom, idsFrom, List.append_assoc, hn]

theorem rowsFrom_source (dealId ct : Str) :
    ∀ (l : List CompetitorProfile) (startId : Nat) (row : CompetitorRec),
      row ∈ rowsFrom startId dealId ct l → row.competitorSource = some ct := by
  intro l
  induction l with
  | nil =>
    intro s row h
    cases h
  | cons c cs ih =>
    intro s row h
    rcases List.mem_cons.mp h with h | h
    · rw [h]
      rfl
    · exact ih (s + 1) row h

theorem any_id_map (g : DealRecord → DealRecord) (hg : ∀ d, (g d).id = d.id) (x : Str) :
    ∀ (l : List DealRecord),
      (l.map g).any (fun d => d.id == x) = l.any (fun d => d.id == x) := by
  intro l
  induction l with
  | nil => rfl
  | cons d ds ih => simp only [List.map_cons, List.any_cons, hg d, ih]

theorem analyzeCompetitors_db_shape (dealId ct : Str) (db : DB) (ai : DiscoveryOutcome)
    (db1 : DB) (out : AnalyzeCompetitorsOut) (ev : List Event)
    (h : analyzeCompetitors dealId ct db ai = Except.ok (db1, out, ev)) :
    db1 = db ∨ db1 = setDealCompetitorsJson db dealId ∨
      ∃ l, db1 = (createMany db dealId ct l).1 := by
  unfold analyzeCompetitors at h
  by_cases h1 : dealId.isEmpty = true
  · rw [if_pos h1] at h
    exact absurd h (by simp)
  rw [if_neg h1] at h
  by_cases h2 : ct.isEmpty = true
  · rw [if_pos h2] at h
    exact absurd h (by simp)
  rw [if_neg h2] at h
  cases hf : db.deals.find? (fun d => d.id == dealId) with
  | none =>
    rw [hf] at h
    exact absurd h (by simp)
  | some d =>
    rw [hf] at h
    by_cases h3 : (dealFileIds db dealId).isEmpty = true
    · rw [if_pos h3] at h
      simp only [Except.ok.injEq, Prod.mk.injEq] at h
      exact Or.inr (Or.inl h.1.symm)
    · rw [if_neg h3] at h
      cases ai with
      | threw e =>
        simp only [Except.ok.injEq, Prod.mk.injEq] at h
        exact Or.inl h.1.symm
      | parseFailed =>
        simp only [Except.ok.injEq, Prod.mk.injEq] at h
        exact Or.inl h.1.symm
      | parsed l =>
        simp only [Except.ok.injEq, Prod.mk.injEq] at h
        exact Or.inr (Or.inr ⟨l, h.1.symm⟩)

theorem analyzeCompetitors_deals_any (dealId ct : Str) (db : DB) (ai : DiscoveryOutcome)
    (db1 : DB) (out : AnalyzeCompetitorsOut) (ev : List Event)
    (h : analyzeCompetitors dealId ct db ai = Except.ok (db1, out, ev)) (x : Str) :
    db1.deals.any (fun d => d.id == x) = db.deals.any (fun d => d.id == x) := by
  rcases analyzeCompetitors_db_shape dealId ct db ai db1 out ev h with h1 | h1 | ⟨l, h1⟩
  · rw [h1]
  · rw [h1]
    unfold setDealCompetitorsJson
    exact any_id_map _ (fun d => by
      show (if d.id == dealId then { d with competitorsJson := some [] } else d).id = d.id
      split <;> rfl) x db.deals
  · rw [h1, createMany_spec]

theorem evaluateCompetitor_fst_threw (cid : Nat) (db : DB) (e : Str) :
    (evaluateCompetitor cid db (EvalOutcome.threw e)).1 = db := by
  unfold evaluateCompetitor
  cases findCompetitorWithDeal db cid <;> rfl

theorem evalStep_deals (env : Env) (db : DB) (cid : Nat) :
    (evalStep env db cid).deals = db.deals := by
  unfold evalStep
  split
  · unfold evaluateCompetitor
    cases findCompetitorWithDeal db cid with
    | none => rfl
    | some cd => cases env.evalAI cid <;> rfl
  · rfl

theorem evalFold_deals (env : Env) :
    ∀ (ids : List Nat) (db : DB),
      (List.foldl (evalStep env) db ids).deals = db.deals := by
  intro ids
  induction ids with
  | nil => intro db; rfl
  | cons i is ih =>
    intro db
    rw [List.foldl_cons, ih, evalStep_deals]

theorem discoveryStep_deals_any (p : Payload) (env : Env) (acc : DB × List Nat)
    (ct : Str) (x : Str) :
    ((discoveryStep p env acc ct).1).deals.any (fun d => d.id == x) =
      acc.1.deals.any (fun d => d.id == x) := by
  unfold discoveryStep
  split
  · cases h : analyzeCompetitors p.dealId ct acc.1 (env.discAI ct) with
    | error e => rfl
    | ok trip =>
      obtain ⟨db1, out, ev⟩ := trip
      obtain ⟨comps, cids⟩ := out
      have := analyzeCompetitors_deals_any p.dealId ct acc.1 (env.discAI ct) db1
        ⟨comps, cids⟩ ev h x
      cases cids <;> simpa using this
  · rfl

theorem discoveryFold_deals_any (p : Payload) (env : Env) (x : Str) :
    ∀ (cats : List Str) (acc : DB × List Nat),
      ((List.foldl (discoveryStep p env) acc cats).1).deals.any (fun d => d.id == x) =
        acc.1.deals.any (fun d => d.id == x) := by
  intro cats
  induction cats with
  | nil => intro acc; rfl
  | cons ct cats ih =>
    intro acc
    rw [List.foldl_cons, ih, discoveryStep_deals_any]

theorem dbAfterEval_deal_present (p : Payload) (env : Env) (db : DB) (x : Str) :
    (dbAfterEval p env db).deals.any (fun d => d.id == x) =
      db.deals.any (fun d => d.id == x) := by
  unfold dbAfterEval dbAfterDiscovery discoveryPhase
  rw [evalFold_deals, discoveryFold_deals_any]
  rfl

/-- Helper: under the conditions that avoid every throw path, the
orchestrator returns normally with the final database, the full trace and
the final read. -/
theorem orchestratorSuccess (p : Payload) (env : Env) (db : DB)
    (h1 : jsTruthyS p.dealId = true) (h2 : jsTruthyS p.userId = true)
    (h3 : (p.s3Files.isEmpty && jsFalsyO p.freeText) = false)
    (h4 : (!p.s3Files.isEmpty && !env.ingestRunOk) = false)
    (h5 : env.dealRunOk = true)
    (h6 : db.deals.any (fun d => d.id == p.dealId) = true) :
    ∃ a db4,
      analyzeDealRun (truthyIds (ingestResults p env)) p.freeText env.dealAI =
        Except.ok a ∧
      updateDeal (dbAfterEval p env db) p.dealId a = some db4 ∧
      uploadOrchestrator p env db =
        Except.ok ⟨db4, orchTrace p env db, findDealWithFiles db4 p.dealId⟩ := by
  obtain ⟨a, ha⟩ :=
    analyzeDealRun_ok (truthyIds (ingestResults p env)) p.freeText env.dealAI
  have hpres : (dbAfterEval p env db).deals.any (fun d => d.id == p.dealId) = true := by
    rw [dbAfterEval_deal_present]
    exact h6
  have hupd : updateDeal (dbAfterEval p env db) p.dealId a =
      some { dbAfterEval p env db with
             deals := (dbAfterEval p env db).deals.map (fun d =>
               if d.id == p.dealId then
                 { d with companyName := some a.deal_name,
                          description := some a.deal_description,
                          foundingTeam := some a.deal_founding_team }
               else d) } := by
    unfold updateDeal
    rw [if_pos hpres]
  refine ⟨a, _, ha, hupd, ?_⟩
  unfold uploadOrchestrator
  rw [h1, h2, h3, h4, h5]
  simp only [Bool.not_true, Bool.false_eq_true, if_false]
  simp only [ha, hupd]

theorem orchTrace_getLast (p : Payload) (env : Env) (db : DB) :
    (orchTrace p env db).getLast? = some (Event.progress doneLbl 100) := by
  unfold orchTrace
  cases hf : p.s3Files.isEmpty <;>
    cases hc : (collectedIds p env db).isEmpty <;> rfl

/-! ## Claims about the orchestrator -/

/-- Claim C5, counterexample.  The failed terminal state is not reserved
for input-validation errors: with a valid payload carrying one file, a
run-level failure of the awaited ingestion child run makes the
orchestrator throw, so the run fails although the input was valid. -/
theorem C5_counterexample :
    uploadOrchestrator pWithFile envIngestFail db0 = Except.error ingestFailedMsg := rfl

/-- Claim C5, amended: the orchestrator fails on input-validation errors
and also when the awaited ingestion run fails as a whole, when the awaited
deal-analysis run fails as a whole, or when the final deal update finds no
record; under every other combination of outcomes, including every AI call
failing and every per-item ingestion failing, the run completes, ending
its trace at the final progress event. -/
theorem C5_amended_thm (p : Payload) (env : Env) (db : DB)
    (h1 : jsTruthyS p.dealId = true) (h2 : jsTruthyS p.userId = true)
    (h3 : (p.s3Files.isEmpty && jsFalsyO p.freeText) = false)
    (h4 : (!p.s3Files.isEmpty && !env.ingestRunOk) = false)
    (h5 : env.dealRunOk = true)
    (h6 : db.deals.any (fun d => d.id == p.dealId) = true) :
    ∃ r, uploadOrchestrator p env db = Except.ok r ∧
      r.trace.getLast? = some (Event.progress doneLbl 100) := by
  obtain ⟨a, db4, ha, hupd, hres⟩ := orchestratorSuccess p env db h1 h2 h3 h4 h5 h6
  exact ⟨_, hres, orchTrace_getLast p env db⟩

/-- Witness for the amended claim C5: a valid one-file payload in an
environment where the item upload fails, the deal analysis call throws,
every discovery call throws and every evaluation call throws; the run
still completes. -/
theorem C5_amended_witness :
    ∃ r, uploadOrchestrator pWithFile envAllFail db0 = Except.ok r ∧
      r.trace.getLast? = some (Event.progress doneLbl 100) :=
  C5_amended_thm pWithFile envAllFail db0 rfl rfl rfl rfl rfl rfl

/-- Claim C6: in every completed orchestrator run the trace consists of a
front segment holding no evaluation batch, then, exactly when competitor
identifiers were collected from the discovery runs, one awaited evaluation
batch carrying exactly the collected identifiers, and then the final
progress events, the last one reporting completion.  The evaluation batch
is the awaited triggerByTaskAndWait call, so the completion events can
only follow the termination of all evaluation runs, and no evaluation
batch follows completion. -/
theorem C6_thm (p : Payload) (env : Env) (db : DB)
    (h1 : jsTruthyS p.dealId = true) (h2 : jsTruthyS p.userId = true)
    (h3 : (p.s3Files.isEmpty && jsFalsyO p.freeText) = false)
    (h4 : (!p.s3Files.isEmpty && !env.ingestRunOk) = false)
    (h5 : env.dealRunOk = true)
    (h6 : db.deals.any (fun d => d.id == p.dealId) = true) :
    ∃ r, uploadOrchestrator p env db = Except.ok r ∧
      ∃ pre,
        r.trace = pre ++
          (if (collectedIds p env db).isEmpty then []
           else [Event.evalBatchAndWait (collectedIds p env db)]) ++
          [Event.progress updLbl 80, Event.progress doneLbl 100] ∧
        (∀ ids, Event.evalBatchAndWait ids ∈ pre → False) := by
  obtain ⟨a, db4, ha, hupd, hres⟩ := orchestratorSuccess p env db h1 h2 h3 h4 h5 h6
  refine ⟨_, hres, [Event.progress initLbl 5] ++
    (if p.s3Files.isEmpty then [] else [Event.progress uploadLbl 15]) ++
    [Event.progress processLbl 40, Event.progress startLbl 50], ?_, ?_⟩
  · show orchTrace p env db = _
    unfold orchTrace
    simp [List.append_assoc]
  · intro ids hmem
    cases hf : p.s3Files.isEmpty <;> rw [hf] at hmem <;> simp at hmem

/-- Witness for claim C6: a free-text run over a deal with one ingested
file, where one discovery branch finds one competitor; the trace holds the
awaited evaluation batch before the completion events. -/
theorem C6_witness :
    ∃ r, uploadOrchestrator p9 (env9 ("open-source".data) [profile1] DealAIOutcome.parseFailed) db9 =
        Except.ok r ∧
      ∃ pre,
        r.trace = pre ++
          (if (collectedIds p9 (env9 ("open-source".data) [profile1] DealAIOutcome.parseFailed) db9).isEmpty then []
           else [Event.evalBatchAndWait
             (collectedIds p9 (env9 ("open-source".data) [profile1] DealAIOutcome.parseFailed) db9)]) ++
          [Event.progress updLbl 80, Event.progress doneLbl 100] ∧
        (∀ ids, Event.evalBatchAndWait ids ∈ pre → False) :=
  C6_thm p9 (env9 ("open-source".data) [profile1] DealAIOutcome.parseFailed) db9
    rfl rfl rfl rfl rfl rfl

/-! ## Claim about discovery branch isolation -/

theorem discStep_miss9 (b : Str) (L : List CompetitorProfile) (a : DealAIOutcome)
    (acc : DB × List Nat) (ct : Str)
    (hne : (ct == b) = false) (hct : ct.isEmpty = false)
    (hdeals : acc.1.deals = [dealRec1]) (hfiles : acc.1.dealFiles = [file9]) :
    discoveryStep p9 (env9 b L a) acc ct = acc := by
  have hfind : acc.1.deals.find? (fun d => d.id == p9.dealId) = some dealRec1 := by
    rw [hdeals]
    rfl
  have hfids : dealFileIds acc.1 p9.dealId = [("fid".data)] := by
    unfold dealFileIds
    rw [hfiles]
    rfl
  have hana : analyzeCompetitors p9.dealId ct acc.1 (DiscoveryOutcome.threw ("E".data)) =
      Except.ok (acc.1, ⟨[], none⟩,
        [Event.progress (fetchLbl ct) 10, Event.progress (analyzeLbl ct) 40, Event.aiCall,
         Event.progress aiFailedLbl 100]) := by
    unfold analyzeCompetitors
    rw [if_neg (show ¬(ct.isEmpty = true) by simp [hct]), hfind, hfids]
    rfl
  have hrun : (env9 b L a).discRunOk ct = true := rfl
  have hAI : (env9 b L a).discAI ct = DiscoveryOutcome.threw ("E".data) := by
    show (if (ct == b) = true then DiscoveryOutcome.parsed L
          else DiscoveryOutcome.threw ("E".data)) = DiscoveryOutcome.threw ("E".data)
    rw [hne]
    rfl
  unfold discoveryStep
  rw [if_pos hrun, hAI, hana]

theorem discStep_hit9 (b : Str) (L : List CompetitorProfile) (a : DealAIOutcome)
    (acc : DB × List Nat)
    (hbne : b.isEmpty = false)
    (hdeals : acc.1.deals = [dealRec1]) (hfiles : acc.1.dealFiles = [file9]) :
    discoveryStep p9 (env9 b L a) acc b =
      ({ acc.1 with
         competitors := acc.1.competitors ++
           rowsFrom acc.1.nextCompetitorId ("d".data) b L,
         nextCompetitorId := acc.1.nextCompetitorId + L.length },
       acc.2 ++ idsFrom acc.1.nextCompetitorId L) := by
  have hfind : acc.1.deals.find? (fun d => d.id == p9.dealId) = some dealRec1 := by
    rw [hdeals]
    rfl
  have hfids : dealFileIds acc.1 p9.dealId = [("fid".data)] := by
    unfold dealFileIds
    rw [hfiles]
    rfl
  have hana : analyzeCompetitors p9.dealId b acc.1 (DiscoveryOutcome.parsed L) =
      Except.ok ((createMany acc.1 p9.dealId b L).1,
        ⟨L, some (createMany acc.1 p9.dealId b L).2⟩, discOkEvents b) := by
    unfold analyzeCompetitors
    rw [if_neg (show ¬(b.isEmpty = true) by simp [hbne]), hfind, hfids]
    rfl
  have hrun : (env9 b L a).discRunOk b = true := rfl
  have hAI : (env9 b L a).discAI b = DiscoveryOutcome.parsed L := by
    show (if (b == b) = true then DiscoveryOutcome.parsed L
          else DiscoveryOutcome.threw ("E".data)) = DiscoveryOutcome.parsed L
    rw [beq_self_eq_true]
    rfl
  unfold discoveryStep
  rw [if_pos hrun, hAI, hana]
  simp only [createMany_spec]
  rfl

theorem discFold_miss9 (b : Str) (L : List CompetitorProfile) (a : DealAIOutcome) :
    ∀ (cats : List Str) (acc : DB × List Nat),
      (∀ ct ∈ cats, (ct == b) = false ∧ ct.isEmpty = false) →
      acc.1.deals = [dealRec1] → acc.1.dealFiles = [file9] →
      List.foldl (discoveryStep p9 (env9 b L a)) acc cats = acc := by
  intro cats
  induction cats with
  | nil => intro acc _ _ _; rfl
  | cons ct cats ih =>
    intro acc hall hdeals hfiles
    rw [List.foldl_cons,
      discStep_miss9 b L a acc ct (hall ct (by simp)).1 (hall ct (by simp)).2 hdeals hfiles]
    exact ih acc (fun c hc => hall c (by simp [hc])) hdeals hfiles

theorem discPhase9 (b : Str) (L : List CompetitorProfile) (a : DealAIOutcome)
    (l1 l2 : List Str)
    (hsplit : ALL_COMPETITOR_TYPES = l1 ++ b :: l2)
    (hl1 : ∀ ct ∈ l1, (ct == b) = false ∧ ct.isEmpty = false)
    (hl2 : ∀ ct ∈ l2, (ct == b) = false ∧ ct.isEmpty = false)
    (hbne : b.isEmpty = false) :
    discoveryPhase p9 (env9 b L a) db9 = (db9disc b L, idsFrom 0 L) := by
  unfold discoveryPhase
  rw [hsplit, List.foldl_append,
    discFold_miss9 b L a l1 (db9, []) hl1 rfl rfl, List.foldl_cons,
    discStep_hit9 b L a (db9, []) hbne rfl rfl,
    discFold_miss9 b L a l2 _ hl2 rfl rfl]
  simp [db9disc, db9]

theorem evalFold_threw9 (b : Str) (L : List CompetitorProfile) (a : DealAIOutcome) :
    ∀ (ids : List Nat) (db : DB),
      List.foldl (evalStep (env9 b L a)) db ids = db := by
  intro ids
  induction ids with
  | nil => intro db; rfl
  | cons i is ih =>
    intro db
    rw [List.foldl_cons]
    have hstep : evalStep (env9 b L a) db i = db := by
      unfold evalStep
      simp only [env9, if_true]
      exact evaluateCompetitor_fst_threw i db ("E".data)
    rw [hstep]
    exact ih db

theorem updateDeal_competitors (db : DB) (x : Str) (a : DealAnalysis) (db4 : DB)
    (h : updateDeal db x a = some db4) : db4.competitors = db.competitors := by
  unfold updateDeal at h
  split at h
  · simp only [Option.some.injEq] at h
    rw [← h]
  · cases h

/-- Claim C9: in a fan-out where discovery of category b parses a list L
and every other category branch throws, and every evaluation call also
throws, the run completes: the failed branches contribute nothing and are
only logged, the sibling branch is unaffected, and the final competitor
table holds exactly the rows created from L, each tagged with category b. -/
theorem C9_thm (b : Str) (hb : b ∈ ALL_COMPETITOR_TYPES)
    (L : List CompetitorProfile) (a : DealAIOutcome) :
    ∃ r, uploadOrchestrator p9 (env9 b L a) db9 = Except.ok r ∧
      r.db.competitors = rowsFrom 0 ("d".data) b L ∧
      (∀ row ∈ r.db.competitors, row.competitorSource = some b) ∧
      r.trace.getLast? = some (Event.progress doneLbl 100) := by
  have hwb : dbAfterWriteBack p9 (env9 b L a) db9 = db9 := rfl
  have hdisc : discoveryPhase p9 (env9 b L a) db9 = (db9disc b L, idsFrom 0 L) := by
    simp only [ALL_COMPETITOR_TYPES, List.mem_cons, List.not_mem_nil, or_false] at hb
    rcases hb with rfl | rfl | rfl | rfl | rfl
    · exact discPhase9 _ L a []
        ["open-source".data, "early-stage-vc".data, "well-funded-vc".data, "incumbents".data]
        rfl (by decide) (by decide) (by decide)
    · exact discPhase9 _ L a ["yc-companies".data]
        ["early-stage-vc".data, "well-funded-vc".data, "incumbents".data]
        rfl (by decide) (by decide) (by decide)
    · exact discPhase9 _ L a ["yc-companies".data, "open-source".data]
        ["well-funded-vc".data, "incumbents".data]
        rfl (by decide) (by decide) (by decide)
    · exact discPhase9 _ L a
        ["yc-companies".data, "open-source".data, "early-stage-vc".data]
        ["incumbents".data]
        rfl (by decide) (by decide) (by decide)
    · exact discPhase9 _ L a
        ["yc-companies".data, "open-source".data, "early-stage-vc".data, "well-funded-vc".data]
        [] rfl (by decide) (by decide) (by decide)
  have hae : dbAfterEval p9 (env9 b L a) db9 = db9disc b L := by
    unfold dbAfterEval dbAfterDiscovery collectedIds
    rw [hwb, hdisc]
    exact evalFold_threw9 b L a (idsFrom 0 L) (db9disc b L)
  obtain ⟨a2, db4, ha, hupd, hres⟩ :=
    orchestratorSuccess p9 (env9 b L a) db9 rfl rfl rfl rfl rfl rfl
  have h2 : db4.competitors = rowsFrom 0 ("d".data) b L := by
    rw [updateDeal_competitors _ _ _ _ hupd, hae]
    rfl
  exact ⟨_, hres, h2,
    fun row hrow => rowsFrom_source ("d".data) b L 0 row (h2 ▸ hrow),
    orchTrace_getLast _ _ _⟩

/-- Witness for claim C9: the open-source branch finds one competitor and
every other branch throws. -/
theorem C9_witness :
    ∃ r, uploadOrchestrator p9
        (env9 ("open-source".data) [profile1] (DealAIOutcome.threw ("E".data))) db9 =
        Except.ok r ∧
      r.db.competitors = rowsFrom 0 ("d".data) ("open-source".data) [profile1] ∧
      (∀ row ∈ r.db.competitors, row.competitorSource = some ("open-source".data)) ∧
      r.trace.getLast? = some (Event.progress doneLbl 100) :=
  C9_thm ("open-source".data) (by decide) [profile1] (DealAIOutcome.threw ("E".data))
